import Mathlib

/-!
# Verification of the news-to-market-opportunity pipeline

Shallow embedding of the pipeline of `private-markets-solana`:
the relevance scorer, deduplication cache and feed ingestor of
`apps/api/src/services/news-scraper.ts`, the multi-provider opportunity
generator (`ai-provider.ts`), and the scan scheduler (`ai-agent.ts`).
JavaScript strings are modelled as Lean `String`s (optional / possibly
`undefined` string fields are modelled as `""`, which is falsy in JS, so
`a || b` becomes `jsOr`); JS numbers that hold integral money/score values
are modelled as `ℤ`/`ℚ`; `Math.round` is `⌊x + 1/2⌋`, which agrees with
JS rounding (half away from zero toward +∞).
-/

/-- JS `a || b` on strings: `""` is falsy. -/
def jsOr (a b : String) : String := if a = "" then b else a

/-- JS `String.prototype.toLowerCase` restricted to ASCII text
(`Char.toLower` lowercases exactly the ASCII uppercase letters). -/
def lowerStr (s : String) : String := String.mk (s.data.map Char.toLower)

/-- Tests whether `needle` is a leading run of `hay` (character lists). -/
def charsStart : List Char → List Char → Bool
  | [], _ => true
  | _ :: _, [] => false
  | a :: as, b :: bs => a == b && charsStart as bs

/-- Tests whether `needle` occurs contiguously in `hay` (character lists). -/
def charsHave (needle hay : List Char) : Bool :=
  match hay with
  | [] => needle.isEmpty
  | _ :: t => charsStart needle hay || charsHave needle t

/-- JS `hay.includes(needle)` (substring containment). -/
def strIncl (hay needle : String) : Bool := charsHave needle.data hay.data

/-- JS `Math.round`: half-up rounding. -/
def jsRound (q : ℚ) : ℤ := ⌊q + 1/2⌋

/-- JS `s.substring(0, n)` on ASCII text. -/
def strTake (n : Nat) (s : String) : String := String.mk (s.data.take n)

/-- JS `s.endsWith("?")` (the only suffix the code tests is one char long). -/
def endsWithQM (s : String) : Bool := s.data.getLast? == some '?'

/-! ## Relevance scorer (`news-scraper.ts`, `PRIVACY_KEYWORDS` and
`scoreRelevance` / `determineCategory` / `determineUrgency`) -/

/-- The weighted keyword table `PRIVACY_KEYWORDS`, in object-literal
(= `Object.entries` iteration) order. -/
def privacyKeywords : List (String × ℚ) :=
  [("zero-knowledge", 3), ("zk-proof", 3), ("zk-snark", 3), ("zk-stark", 3),
   ("zkrollup", 3), ("confidential", 5/2), ("encryption", 5/2), ("encrypted", 5/2),
   ("privacy-preserving", 3), ("private transaction", 3),
   ("tornado cash", 3), ("zcash", 5/2), ("monero", 5/2), ("light protocol", 3),
   ("elusiv", 3), ("aztec", 5/2), ("railgun", 5/2), ("secret network", 5/2),
   ("gdpr", 2), ("privacy law", 5/2), ("data protection", 2), ("surveillance", 5/2),
   ("sanctions", 2), ("ofac", 5/2), ("compliance", 3/2), ("kyc", 3/2), ("aml", 3/2),
   ("privacy", 3/2), ("anonymous", 2), ("anonymity", 2), ("pseudonymous", 3/2),
   ("private", 1), ("mixer", 2), ("mixing", 2), ("shielded", 5/2),
   ("homomorphic", 3), ("mpc", 5/2), ("secure enclave", 2), ("tee", 2),
   ("trusted execution", 2),
   ("data breach", 5/2), ("leak", 3/2), ("hack", 3/2), ("compromised", 3/2),
   ("solana privacy", 3), ("spl confidential", 3), ("token-2022 confidential", 3)]

/-- The table `CATEGORY_KEYWORDS`, in object-literal order. -/
def categoryKeywords : List (String × List String) :=
  [("regulation", ["law", "regulation", "gdpr", "sanctions", "ofac", "compliance",
                   "legislation", "ban", "restrict", "sec", "cftc"]),
   ("technology", ["zk", "protocol", "launch", "release", "upgrade", "mainnet",
                   "testnet", "tvl", "smart contract", "proof"]),
   ("adoption", ["users", "growth", "adoption", "enterprise", "mainstream",
                 "wallet", "integration", "partnership"]),
   ("events", ["breach", "hack", "leak", "scandal", "arrest", "raid",
               "lawsuit", "verdict", "court"])]

/-- The list `URGENCY_KEYWORDS.breaking`. -/
def urgencyBreaking : List String :=
  ["breaking", "just in", "urgent", "alert", "confirmed", "arrested", "breached"]

/-- The list `URGENCY_KEYWORDS.timely`. -/
def urgencyTimely : List String :=
  ["announces", "launches", "releases", "proposes", "reaches", "exceeds", "surpasses"]

/-- Mirrors `determineCategory`: per-category substring hit counts over the lowered
text, then the first strictly-larger count wins; ties and the no-hit case
keep the initial technology value. -/
def determineCategory (text : String) : String :=
  let scores := categoryKeywords.map (fun ck =>
    (ck.1, ck.2.foldl (fun n k => if strIncl text k then n + 1 else n) 0))
  (scores.foldl (fun (best : String × Nat) s =>
    if s.2 > best.2 then s else best) ("technology", 0)).1

/-- Mirrors `determineUrgency`: breaking indicators are checked before timely ones. -/
def determineUrgency (text : String) : String :=
  if urgencyBreaking.any (fun k => strIncl text k) then "breaking"
  else if urgencyTimely.any (fun k => strIncl text k) then "timely"
  else "evergreen"

/-- Result record of `scoreRelevance`. -/
structure ScoreOut where
  score : ℤ
  matchedKeywords : List String
  suggestedCategory : String
  urgency : String
deriving Repr, DecidableEq

/-- Mirrors `NewsScrapingService.scoreRelevance` loop for loop: the
weighted-table pass adds `weight * 10` per matched entry; the
source-keyword pass adds `5` per matched keyword (the duplicate check
guards only the `matchedKeywords` push, not the score); the final score is
`Math.min(Math.round(score * sourceWeight), 100)`. -/
def scoreRelevance (text : String) (sourceKeywords : List String)
    (sourceWeight : ℚ) : ScoreOut :=
  let lowerText := lowerStr text
  let p1 := privacyKeywords.foldl
    (fun (acc : ℚ × List String) kw =>
      if strIncl lowerText kw.1 then (acc.1 + kw.2 * 10, acc.2 ++ [kw.1]) else acc)
    (0, [])
  let p2 := sourceKeywords.foldl
    (fun (acc : ℚ × List String) kw =>
      if strIncl lowerText (lowerStr kw) then
        (acc.1 + 5, if acc.2.contains kw then acc.2 else acc.2 ++ [kw])
      else acc)
    p1
  { score := min (jsRound (p2.1 * sourceWeight)) 100,
    matchedKeywords := p2.2,
    suggestedCategory := determineCategory lowerText,
    urgency := determineUrgency lowerText }

/-! ## Deduplication cache (`news-scraper.ts` `seenIds` handling inside
`scrapeRSSSource`): a JS `Set` keeps insertion order, so it is modelled as a
duplicate-free insertion-ordered list.  `add` is
`seenIds.add(id)` followed by the batch-eviction check
`if (seenIds.size > 10000) seenIds = new Set(Array.from(seenIds).slice(-5000))`. -/

/-- Mirrors `Set.add`: append unless present (a JS `Set` keeps the first position). -/
def cacheInsert (seen : List String) (id : String) : List String :=
  if seen.contains id then seen else seen ++ [id]

/-- The id registration step of `scrapeRSSSource`: add, then if the size
exceeds 10000 keep only the last 5000 ids (`Array.from(...).slice(-5000)`). -/
def cacheAdd (seen : List String) (id : String) : List String :=
  if (cacheInsert seen id).length > 10000 then
    (cacheInsert seen id).drop ((cacheInsert seen id).length - 5000)
  else cacheInsert seen id

/-- Mirrors `seenIds.has(id)`. -/
def cacheHas (seen : List String) (id : String) : Bool := seen.contains id

/-- Whether the `cacheAdd` step for `id` triggers the batch eviction. -/
def addEvicts (seen : List String) (id : String) : Bool :=
  (cacheInsert seen id).length > 10000

/-- No eviction fires anywhere along a run of `cacheAdd` steps. -/
def noEvictRun (seen : List String) : List String → Bool
  | [] => true
  | x :: xs => !(addEvicts seen x) && noEvictRun (cacheAdd seen x) xs

/-! ## Feed ingestor (`news-scraper.ts` `scrapeRSSSource` / `scrapeAllSources`).
The possibly-missing string fields of a parsed feed entry are `""` when absent;
`Date.now()` and the parsing of publication dates are passed in as
parameters (`now`, `nowIso`, `parseTime`) since they are environment inputs. -/

structure NewsSource where
  name : String
  keywords : List String
  weight : ℚ
deriving Repr

structure FeedEntry where
  guid : String
  link : String
  title : String
  contentSnippet : String
  content : String
  pubDate : String
deriving Repr, DecidableEq

structure NewsItem where
  id : String
  title : String
  summary : String
  source : String
  link : String
  publishedAt : String
  relevanceScore : ℤ
  matchedKeywords : List String
  suggestedCategory : String
  urgency : String
deriving Repr, DecidableEq

/-- Mirrors the id fallback chain guid, then link, then a synthesized
source-name-and-timestamp string. -/
def entryId (source : NewsSource) (now : Nat) (e : FeedEntry) : String :=
  jsOr e.guid (jsOr e.link (source.name ++ "-" ++ toString now))

/-- One iteration of the entry loop of `scrapeRSSSource`: skip if the id is
already in the cache, otherwise score the entry, keep it only when
`score >= 20`, and register the id in the cache in either scoring case. -/
def processEntry (source : NewsSource) (now : Nat) (nowIso : String)
    (st : List String × List NewsItem) (e : FeedEntry) :
    List String × List NewsItem :=
  if cacheHas st.1 (entryId source now e) then st
  else
    let text := jsOr e.title "" ++ " " ++ jsOr e.contentSnippet (jsOr e.content "")
    let r := scoreRelevance text source.keywords source.weight
    let items :=
      if r.score ≥ 20 then
        st.2 ++ [{ id := entryId source now e,
                   title := jsOr e.title "No title",
                   summary := jsOr e.contentSnippet (strTake 200 e.content),
                   source := source.name,
                   link := jsOr e.link "",
                   publishedAt := jsOr e.pubDate nowIso,
                   relevanceScore := r.score,
                   matchedKeywords := r.matchedKeywords,
                   suggestedCategory := r.suggestedCategory,
                   urgency := r.urgency }]
      else st.2
    (cacheAdd st.1 (entryId source now e), items)

/-- Mirrors `scrapeRSSSource` on an already-fetched entry list: the first 20 entries
(`feed.items.slice(0, 20)`) run through `processEntry`; returns the surviving
items and the updated seen-id cache. -/
def scrapeRSSSource (source : NewsSource) (now : Nat) (nowIso : String)
    (seen : List String) (entries : List FeedEntry) :
    List NewsItem × List String :=
  let st := (entries.take 20).foldl (processEntry source now nowIso) (seen, [])
  (st.2, st.1)

/-- Mirrors `isRecentNews`: published within the last 24 hours.  `parseTime` stands
for `new Date(publishedAt).getTime()` (millisecond timestamps). -/
def isRecentNews (parseTime : String → ℤ) (now : ℤ) (publishedAt : String) : Bool :=
  now - parseTime publishedAt < 24 * 60 * 60 * 1000

/-- Descending relevance order used by `sort((a, b) => b.relevanceScore - a.relevanceScore)`. -/
def byScoreDesc (a b : NewsItem) : Bool := b.relevanceScore ≤ a.relevanceScore

/-- Mirrors `scrapeAllSources` given each source\x27s already-scraped item list
(`perSource`): concatenates them, unshifts every item onto the bounded
recent-events buffer (capacity 100, trimmed with `slice(0, 100)`), then
filters to recent items, sorts by descending relevance (stable, as in
modern JS engines) and keeps the top 15.  Returns (result, new buffer). -/
def scrapeAllSources (parseTime : String → ℤ) (now : ℤ)
    (perSource : List (List NewsItem)) (recent0 : List NewsItem) :
    List NewsItem × List NewsItem :=
  let allNews := perSource.foldl (fun acc l => acc ++ l) []
  let recent1 := allNews.foldl (fun r item => item :: r) recent0
  let recent2 := if recent1.length > 100 then recent1.take 100 else recent1
  let out :=
    (((allNews.filter (fun i => isRecentNews parseTime now i.publishedAt)).mergeSort
        byScoreDesc).take 15)
  (out, recent2)

/-! ## Opportunity generator (`ai-provider.ts`).  The remote providers
(Gemini / Anthropic) are external collaborators: the outcome of a remote
call — successful decode of the completion into a market object, or a
thrown error — is passed in as an `Except String GeneratedMarket`
parameter.  `JSON.parse` performs no schema checking, so a decoded market
carries arbitrary strings and numbers in its fields. -/

inductive Provider
  | gemini
  | anthropic
  | fallback
deriving Repr, DecidableEq

structure GeneratedMarket where
  question : String
  category : String
  categoryName : String
  suggestedDurationDays : ℤ
  suggestedLiquidityUSDC : ℤ
  urgency : String
  reasoning : String
  sourceNews : Option (String × String × String)
  sourceTopic : Option String
  generatedAt : Nat
deriving Repr, DecidableEq

/-- Mirrors `cat.charAt(0).toUpperCase() + cat.slice(1)`. -/
def capitalizeStr (s : String) : String :=
  match s.data with
  | [] => ""
  | c :: t => String.mk (Char.toUpper c :: t)

/-- Mirrors `AIProviderService.generateTopicFallback`: category defaults to the
fixed default technology (JS or-default on the category argument); a topic that does not
already end in `"?"` becomes `` `Will ${topic.toLowerCase()}?` ``. -/
def generateTopicFallback (topic : String) (category : Option String)
    (now : Nat) : GeneratedMarket :=
  let cat := match category with
    | none => "technology"
    | some c => jsOr c "technology"
  let durationDays : ℤ := if cat = "regulation" then 90 else 60
  let question := if endsWithQM topic then topic
                  else "Will " ++ lowerStr topic ++ "?"
  { question := question,
    category := cat,
    categoryName := capitalizeStr cat,
    suggestedDurationDays := durationDays,
    suggestedLiquidityUSDC := 5000,
    urgency := "timely",
    reasoning := "Generated from topic: " ++ strTake 50 topic,
    sourceNews := none,
    sourceTopic := none,
    generatedAt := now }

/-- Removes single and double quote characters from the title (39 is the
code point of the apostrophe). -/
def stripQuotes (s : String) : String :=
  String.mk (s.data.filter (fun c => !(c.toNat == 39 || c == '"')))

/-- The `categoryQuestions` template lookup of `generateWithFallback`. -/
def categoryQuestion (category cleanTitle : String) (durationDays : ℤ)
    (futureDate : String) : String :=
  if category = "regulation" then
    "Will regulatory action be taken regarding \"" ++ cleanTitle ++ "\" by "
      ++ futureDate ++ "?"
  else if category = "technology" then
    "Will \"" ++ cleanTitle ++ "\" lead to significant protocol adoption within "
      ++ toString durationDays ++ " days?"
  else if category = "adoption" then
    "Will user metrics exceed expectations for \"" ++ cleanTitle ++ "\" by "
      ++ futureDate ++ "?"
  else
    "Will there be follow-up legal or regulatory action on \"" ++ cleanTitle
      ++ "\" within " ++ toString durationDays ++ " days?"

/-- Mirrors `AIProviderService.generateWithFallback` (news-based rule fallback).
`futureDate` stands for `formatFutureDate(durationDays)`, which reads the
wall clock. -/
def generateWithFallback (title summary : String) (futureDate : String)
    (now : Nat) : GeneratedMarket :=
  let text := lowerStr (title ++ " " ++ jsOr summary "")
  let catUrg : String × String :=
    if strIncl text "regulation" || strIncl text "law" || strIncl text "sec"
        || strIncl text "ban" then ("regulation", "timely")
    else if strIncl text "breach" || strIncl text "hack"
        || strIncl text "arrest" then ("events", "breaking")
    else if strIncl text "adoption" || strIncl text "users"
        || strIncl text "growth" then ("adoption", "timely")
    else ("technology", "timely")
  let cleanTitle := strTake 60 (stripQuotes title)
  let durationDays : ℤ :=
    if catUrg.2 = "breaking" then 14 else if catUrg.1 = "regulation" then 90 else 30
  { question := categoryQuestion catUrg.1 cleanTitle durationDays futureDate,
    category := catUrg.1,
    categoryName := capitalizeStr catUrg.1,
    suggestedDurationDays := durationDays,
    suggestedLiquidityUSDC := 5000,
    urgency := catUrg.2,
    reasoning := "Auto-generated from news: " ++ strTake 50 title ++ "...",
    sourceNews := none,
    sourceTopic := none,
    generatedAt := now }

/-- Mirrors `AIProviderService.generateFromTopic`: dispatch on the provider chosen
at startup, then stamp `sourceTopic` and `generatedAt` onto the result.
`remote` is the outcome of the remote-LLM call for the non-fallback
providers. -/
def generateFromTopic (provider : Provider)
    (remote : Except String GeneratedMarket) (topic : String)
    (category : Option String) (now : Nat) : Except String GeneratedMarket :=
  let market : Except String GeneratedMarket :=
    match provider with
    | .gemini => remote
    | .anthropic => remote
    | .fallback => .ok (generateTopicFallback topic category now)
  market.map (fun m => { m with sourceTopic := some topic, generatedAt := now })

/-- Mirrors `AIProviderService.generateFromNews`: same dispatch, stamping
`sourceNews` (title, source, link) and `generatedAt`.  The remote branches
return whatever `JSON.parse` decoded, without any enum or bounds check. -/
def generateFromNews (provider : Provider)
    (remote : Except String GeneratedMarket)
    (title source link summary : String) (futureDate : String) (now : Nat) :
    Except String GeneratedMarket :=
  let market : Except String GeneratedMarket :=
    match provider with
    | .gemini => remote
    | .anthropic => remote
    | .fallback => .ok (generateWithFallback title summary futureDate now)
  market.map (fun m =>
    { m with sourceNews := some (title, source, link), generatedAt := now })

/-- Mirrors `AIProviderService.getDemoMarkets`: the five prebuilt demo markets. -/
def getDemoMarkets (now : Nat) : List GeneratedMarket :=
  [{ question := "Will the SEC approve a privacy-focused crypto ETF by end of 2025?",
     category := "regulation", categoryName := "Regulation",
     suggestedDurationDays := 180, suggestedLiquidityUSDC := 10000,
     urgency := "timely",
     reasoning := "High-impact regulatory decision affecting privacy coins",
     sourceNews := none, sourceTopic := none, generatedAt := now },
   { question := "Will Solana\x27s confidential token standard (Token-2022) see 1M+ transfers by Q4 2025?",
     category := "technology", categoryName := "Technology",
     suggestedDurationDays := 120, suggestedLiquidityUSDC := 8000,
     urgency := "timely",
     reasoning := "Key adoption metric for Solana\x27s privacy features",
     sourceNews := none, sourceTopic := none, generatedAt := now },
   { question := "Will Tornado Cash sanctions be fully lifted before 2026?",
     category := "regulation", categoryName := "Regulation",
     suggestedDurationDays := 365, suggestedLiquidityUSDC := 15000,
     urgency := "evergreen",
     reasoning := "Major precedent for privacy protocol regulations",
     sourceNews := none, sourceTopic := none, generatedAt := now },
   { question := "Will a major data breach affecting 100M+ users occur in 2025?",
     category := "events", categoryName := "Events",
     suggestedDurationDays := 365, suggestedLiquidityUSDC := 5000,
     urgency := "evergreen",
     reasoning := "Privacy market indicator based on breach frequency",
     sourceNews := none, sourceTopic := none, generatedAt := now },
   { question := "Will zero-knowledge proof TVL exceed $10B across all chains by mid-2025?",
     category := "adoption", categoryName := "Adoption",
     suggestedDurationDays := 150, suggestedLiquidityUSDC := 12000,
     urgency := "timely",
     reasoning := "Key metric for ZK technology adoption",
     sourceNews := none, sourceTopic := none, generatedAt := now }]

/-- The fixed internal topic list of `generateDiverseMarkets`. -/
def diverseTopics : List String :=
  ["Will US pass comprehensive crypto privacy regulations in 2025?",
   "Will Solana privacy features reach 1M+ active users by end of 2025?",
   "Will a major exchange implement zero-knowledge proofs for trading by Q4 2025?",
   "Will the EU ban privacy coins completely by 2026?",
   "Will Tornado Cash legal case be resolved favorably by end of 2025?",
   "Will enterprise adoption of confidential computing exceed 50% by 2026?",
   "Will a major data breach affect 100M+ users in 2025?",
   "Will decentralized identity solutions reach mainstream adoption by 2025?",
   "Will privacy-preserving AI regulations be passed globally by 2026?",
   "Will Token-2022 confidential transfers be used by major DeFi protocols?"]

/-- The category rotation of `generateDiverseMarkets`. -/
def diverseCategories : List String :=
  ["regulation", "technology", "adoption", "events"]

/-- One entry of the result array of `generateDiverseMarkets`. -/
structure GenResult where
  success : Bool
  market : Option GeneratedMarket
  error : Option String
deriving Repr, DecidableEq

/-- The i-th loop iteration of `generateDiverseMarkets`:
`generateFromTopic(topics[i], categories[i % categories.length])`, pushed
as a success or a per-item failure record. -/
def diverseAttempt (provider : Provider)
    (remote : Nat → Except String GeneratedMarket) (now i : Nat) : GenResult :=
  match generateFromTopic provider (remote i)
      ((diverseTopics.get? i).getD "")
      (some ((diverseCategories.get? (i % diverseCategories.length)).getD ""))
      now with
  | .ok m => { success := true, market := some m, error := none }
  | .error e => { success := false, market := none, error := some e }

/-- The demo markets truncated to `count` and wrapped as successes. -/
def demoResults (count now : Nat) : List GenResult :=
  ((getDemoMarkets now).take count).map
    (fun m => { success := true, market := some m, error := none })

/-- The `results` array built by the loop of `generateDiverseMarkets`. -/
def diverseResults (provider : Provider)
    (remote : Nat → Except String GeneratedMarket) (count now : Nat) :
    List GenResult :=
  (List.range (min count diverseTopics.length)).map
    (diverseAttempt provider remote now)

/-- Mirrors `AIProviderService.generateDiverseMarkets`: in fallback mode return the
demo markets immediately; otherwise call `generateFromTopic` on the first
`min(count, topics.length)` topics (`remote i` is the outcome of the i-th
remote call) and substitute the demo markets when the failure count
(`aiFailures`) equals `count`. -/
def generateDiverseMarkets (provider : Provider)
    (remote : Nat → Except String GeneratedMarket) (count : Nat) (now : Nat) :
    List GenResult :=
  if provider = .fallback then demoResults count now
  else if ((diverseResults provider remote count now).filter
      (fun r => !r.success)).length = count then demoResults count now
  else diverseResults provider remote count now

/-! ## Scan scheduler (`ai-agent.ts` `AIAgentService`).  One scan cycle is
modelled as an atomic state transition: the environment of a cycle (the
news batch, the opportunity list produced by the generator stage, the
per-opportunity outcome of the external market-creation collaborator, and
whether the cycle body throws) is a `CycleEnv` parameter.  The only
statements inside the `try` blocks that mutate agent state are the
`createPrivacyMarket` pushes (which cannot throw: the call catches its own
errors and returns `null`), the `lastScanTime` assignment and the history
push, so an internal failure (`fails = true`) reaches the `catch` with the
agent state unchanged, and the `finally` resets `isRunning`. -/

structure ScanRecord where
  timestamp : Nat
  marketsFound : Nat
  marketsCreated : Nat
deriving Repr, DecidableEq

structure AgentState where
  isRunning : Bool
  lastScanTime : Option Nat
  marketsCreated : List String
  scanHistory : List ScanRecord
deriving Repr, DecidableEq

structure ForceScanResult where
  success : Bool
  newsFound : Nat
  opportunitiesFound : Nat
  marketsCreated : List String
deriving Repr, DecidableEq

structure CycleEnv where
  fails : Bool
  numNews : Nat
  numOpportunities : Nat
  createRes : Nat → Option String

/-- The market addresses created by one cycle: `opportunities.slice(0, 2)`
attempts, each succeeding (`some address`, pushed) or returning `null`. -/
def cycleCreated (env : CycleEnv) : List String :=
  (List.range (min 2 env.numOpportunities)).filterMap env.createRes

/-- Mirrors `AIAgentService.forceScan`: busy guard, then the cycle body inside
`try`/`catch`/`finally`. -/
def forceScan (st : AgentState) (now : Nat) (env : CycleEnv) :
    ForceScanResult × AgentState :=
  if st.isRunning then
    ({ success := false, newsFound := 0, opportunitiesFound := 0,
       marketsCreated := [] }, st)
  else if env.fails then
    ({ success := false, newsFound := 0, opportunitiesFound := 0,
       marketsCreated := [] },
     { st with isRunning := false })
  else
    let created := cycleCreated env
    ({ success := true, newsFound := env.numNews,
       opportunitiesFound := env.numOpportunities, marketsCreated := created },
     { isRunning := false,
       lastScanTime := some now,
       marketsCreated := st.marketsCreated ++ created,
       scanHistory := st.scanHistory ++
         [{ timestamp := now, marketsFound := env.numOpportunities,
            marketsCreated := created.length }] })

/-- One firing of the cron job installed by
`AIAgentService.startScheduledScanning`: same busy guard and cycle body,
but the scheduled path updates only `lastScanTime` — it never pushes a
`ScanRecord`. -/
def scheduledScanStep (st : AgentState) (now : Nat) (env : CycleEnv) :
    AgentState :=
  if st.isRunning then st
  else if env.fails then { st with isRunning := false }
  else
    { isRunning := false,
      lastScanTime := some now,
      marketsCreated := st.marketsCreated ++ cycleCreated env,
      scanHistory := st.scanHistory }

/-! ## Claim-side definitions: declarative forms of the raw relevance score,
and the validation predicate the specification asserts for decoded
generator output. -/

/-- The sum of weight times 10 over the weighted-table entries matched by the
(already lowercased) text. -/
def tableRawScore (lowerText : String) : ℚ :=
  ((privacyKeywords.filter (fun kw => strIncl lowerText kw.1)).map
    (fun kw => kw.2 * 10)).sum

/-- How many source-specific keywords match the (already lowercased) text. -/
def srcMatchCount (lowerText : String) (sourceKeywords : List String) : Nat :=
  (sourceKeywords.filter (fun kw => strIncl lowerText (lowerStr kw))).length

/-- The table keywords matched by the text (the "already-matched terms"). -/
def tableMatched (lowerText : String) : List String :=
  (privacyKeywords.filter (fun kw => strIncl lowerText kw.1)).map (fun kw => kw.1)

/-- The score as claim C4 words it: 5 points only for matched source
keywords that do not duplicate an already-matched table term, and the final
value clamped to [0, 100] on both sides. -/
def claimC4score (text : String) (sourceKeywords : List String)
    (sourceWeight : ℚ) : ℤ :=
  let lt := lowerStr text
  let dedupCount := (sourceKeywords.filter (fun kw =>
    strIncl lt (lowerStr kw) && !(tableMatched lt).contains kw)).length
  max 0 (min (jsRound ((tableRawScore lt + 5 * dedupCount) * sourceWeight)) 100)

/-- The validation the specification requires of decoded generator output:
category and urgency drawn from their enumerations, and the duration and
liquidity inside the prompt bounds of 30–365 days and 1000–10000 USDC. -/
def specValidGeneratedMarket (m : GeneratedMarket) : Bool :=
  (["regulation", "technology", "adoption", "events"].contains m.category)
    && (["breaking", "timely", "evergreen"].contains m.urgency)
    && decide (30 ≤ m.suggestedDurationDays)
    && decide (m.suggestedDurationDays ≤ 365)
    && decide (1000 ≤ m.suggestedLiquidityUSDC)
    && decide (m.suggestedLiquidityUSDC ≤ 10000)

/-- A decoded completion whose fields violate every one of the
enumeration and bounds requirements of the specification. -/
def invalidDecoded : GeneratedMarket :=
  { question := "anything",
    category := "bogus",
    categoryName := "",
    suggestedDurationDays := 9999,
    suggestedLiquidityUSDC := -5,
    urgency := "nope",
    reasoning := "",
    sourceNews := none,
    sourceTopic := none,
    generatedAt := 0 }

/-- An idle agent with empty history. -/
def idleAgent : AgentState :=
  { isRunning := false, lastScanTime := none, marketsCreated := [],
    scanHistory := [] }

/-- A cycle in which scraping, generation and market creation all succeed. -/
def okCycle : CycleEnv :=
  { fails := false, numNews := 1, numOpportunities := 1,
    createRes := fun _ => some "market-address" }

/-- A one-feed source used to instantiate the ingestor theorems. -/
def wSource : NewsSource := { name := "src", keywords := [], weight := 1 }

/-- A feed entry with a stable guid. -/
def wEntry : FeedEntry :=
  { guid := "guid-1", link := "", title := "t", contentSnippet := "",
    content := "", pubDate := "" }

/-! # Theorems -/

/-- C1. Single-flight guard: a scan triggered (manually or by the timer)
while a cycle is in flight yields a busy result with zero counts and an
empty created-markets list and leaves the whole state — in particular the
scan history — unchanged; and every cycle that does start, including one
that fails internally, ends with `isRunning` reset to `false`. -/
theorem agent_single_flight (st : AgentState) (now : Nat) (env : CycleEnv) :
    forceScan { st with isRunning := true } now env
        = ({ success := false, newsFound := 0, opportunitiesFound := 0,
             marketsCreated := [] }, { st with isRunning := true })
    ∧ (forceScan { st with isRunning := false } now env).2.isRunning = false
    ∧ scheduledScanStep { st with isRunning := true } now env
        = { st with isRunning := true }
    ∧ (scheduledScanStep { st with isRunning := false } now env).isRunning
        = false := by
  refine ⟨?_, ?_, ?_, ?_⟩ <;>
    cases hf : env.fails <;>
      simp [forceScan, scheduledScanStep, hf]

/-- C10 counterexample: a scheduled cycle that runs to completion
(`lastScanTime` is updated, the agent returns to idle) appends no
`ScanRecord` at all, refuting "every completed pipeline cycle — scheduled
or manually triggered — appends one ScanRecord". -/
theorem scheduled_cycle_no_history_cx :
    (scheduledScanStep idleAgent 5 okCycle).scanHistory = []
    ∧ (scheduledScanStep idleAgent 5 okCycle).lastScanTime = some 5
    ∧ (scheduledScanStep idleAgent 5 okCycle).isRunning = false :=
  ⟨rfl, rfl, rfl⟩

/-- C10 amended: only a successfully completed manually triggered cycle
(`forceScan`) appends one ScanRecord (timestamp, opportunities found,
markets created) to the stored history, which is never truncated; a
completed scheduled cycle appends nothing. -/
theorem scan_history_append (st : AgentState) (now : Nat) (env : CycleEnv)
    (h1 : st.isRunning = false) (h2 : env.fails = false) :
    (forceScan st now env).2.scanHistory
        = st.scanHistory
            ++ [{ timestamp := now, marketsFound := env.numOpportunities,
                  marketsCreated := (cycleCreated env).length }]
    ∧ (scheduledScanStep st now env).scanHistory = st.scanHistory := by
  simp [forceScan, scheduledScanStep, h1, h2]

/-- Witness for `scan_history_append` at a concrete idle agent and
successful cycle. -/
theorem scan_history_append_witness :
    (forceScan idleAgent 5 okCycle).2.scanHistory
        = [{ timestamp := 5, marketsFound := 1, marketsCreated := 1 }]
    ∧ (scheduledScanStep idleAgent 5 okCycle).scanHistory = [] := by
  have h := scan_history_append idleAgent 5 okCycle rfl rfl
  simpa [idleAgent, okCycle, cycleCreated] using h

/-- C9 counterexample: a decoded completion violating every enumeration
and numeric bound required by the specification is accepted by
`generateFromNews` (no parse failure), refuting the claimed validation. -/
theorem generateFromNews_no_validation_cx :
    (generateFromNews .anthropic (Except.ok invalidDecoded)
        "title" "source" "link" "" "" 0).isOk = true
    ∧ specValidGeneratedMarket invalidDecoded = false :=
  ⟨rfl, by decide⟩

/-- C9 amended: `generateFromNews` on a remote provider fails exactly when
decoding the completion fails (the JSON parse error is propagated), and on
a successful decode returns the object with `sourceNews` and `generatedAt`
stamped, performing no validation of the category/urgency enumerations or
the numeric bounds. -/
theorem generateFromNews_parse_only (m : GeneratedMarket)
    (e t s l sm fd : String) (now : Nat) :
    generateFromNews .anthropic (Except.error e) t s l sm fd now
        = Except.error e
    ∧ generateFromNews .gemini (Except.error e) t s l sm fd now
        = Except.error e
    ∧ generateFromNews .anthropic (Except.ok m) t s l sm fd now
        = Except.ok { m with sourceNews := some (t, s, l), generatedAt := now }
    ∧ generateFromNews .gemini (Except.ok m) t s l sm fd now
        = Except.ok { m with sourceNews := some (t, s, l), generatedAt := now } :=
  ⟨rfl, rfl, rfl, rfl⟩

/-- C2 counterexample: for the topic "Will ETF approval happen" (no
trailing question mark, no category) the fallback generator produces
"Will will etf approval happen?" — it prepends "Will " and lowercases
instead of appending "?" to the topic. -/
theorem generateFromTopic_fallback_cx :
    (generateFromTopic .fallback (Except.error "") "Will ETF approval happen"
        none 0).map (fun m => m.question)
      = Except.ok "Will will etf approval happen?"
    ∧ (("Will will etf approval happen?" : String)
        == "Will ETF approval happen" ++ "?") = false := by
  exact ⟨rfl, by decide⟩

/-- C2 amended: for every topic that does not already end in "?", the
fallback `generateFromTopic` returns the question
`"Will " ++ topic.toLowerCase() ++ "?"`, and with no category supplied the
category is the fixed default `"technology"` (no keyword heuristics run on
topics). -/
theorem generateFromTopic_fallback_question (topic : String)
    (cat : Option String) (now : Nat) (remote : Except String GeneratedMarket)
    (h : endsWithQM topic = false) :
    (generateFromTopic .fallback remote topic cat now).map (fun m => m.question)
        = Except.ok ("Will " ++ lowerStr topic ++ "?")
    ∧ (generateFromTopic .fallback remote topic none now).map
          (fun m => m.category)
        = Except.ok "technology" := by
  simp [generateFromTopic, generateTopicFallback, h, Except.map]

/-- Witness for `generateFromTopic_fallback_question` at the concrete
topic "Will ETF approval happen". -/
theorem generateFromTopic_fallback_question_witness :
    endsWithQM "Will ETF approval happen" = false
    ∧ (generateFromTopic .fallback (Except.error "") "Will ETF approval happen"
          none 0).map (fun m => m.question)
        = Except.ok ("Will " ++ lowerStr "Will ETF approval happen" ++ "?") :=
  ⟨by decide,
   (generateFromTopic_fallback_question "Will ETF approval happen" none 0
      (Except.error "") (by decide)).1⟩


/-- C3 counterexample: with a remote provider selected and every
individual generation call failing, `generateDiverseMarkets 6` returns
only 5 results even though 6 does not exceed the internal topic list
size (10) — the all-failed demo substitution is capped by the demo list
length of 5. -/
theorem generateDiverseMarkets_cx :
    (generateDiverseMarkets .anthropic (fun _ => Except.error "AI failed")
        6 0).length = 5
    ∧ 6 ≤ diverseTopics.length := by decide

/-- C3 amended: whenever `count ≤ 5` (the size of the demo list, itself at
most the size of the topic list), `generateDiverseMarkets count` returns
exactly `count` results, and if every individual generation call fails the
returned list is the static demo substitution in which every result has
`success = true`. -/
theorem generateDiverseMarkets_count (provider : Provider)
    (remote : Nat → Except String GeneratedMarket) (count now : Nat)
    (hc : count ≤ 5) :
    (generateDiverseMarkets provider remote count now).length = count
    ∧ ((∀ i, (remote i).isOk = false) →
        ∀ r ∈ generateDiverseMarkets provider remote count now,
          r.success = true) := by
  have hdemo : (demoResults count now).length = count := by
    have h5 : (getDemoMarkets now).length = 5 := by simp [getDemoMarkets]
    rw [demoResults, List.length_map, List.length_take, h5]
    omega
  have hdemoSucc : ∀ r ∈ demoResults count now, r.success = true := by
    intro r hr
    obtain ⟨m, -, rfl⟩ := List.mem_map.mp hr
    rfl
  have htop : diverseTopics.length = 10 := by simp [diverseTopics]
  have hdiv : (diverseResults provider remote count now).length = count := by
    rw [diverseResults, List.length_map, List.length_range, htop]
    omega
  by_cases hp : provider = .fallback
  · rw [generateDiverseMarkets, if_pos hp]
    exact ⟨hdemo, fun _ => hdemoSucc⟩
  · have hattempt : ∀ i, (remote i).isOk = false →
        (diverseAttempt provider remote now i).success = false := by
      intro i hi
      cases hr : remote i with
      | ok a => rw [hr] at hi; simp [Except.isOk, Except.toBool] at hi
      | error e =>
        cases provider with
        | fallback => exact absurd rfl hp
        | gemini => simp [diverseAttempt, generateFromTopic, hr, Except.map]
        | anthropic => simp [diverseAttempt, generateFromTopic, hr, Except.map]
    rw [generateDiverseMarkets, if_neg hp]
    refine ⟨?_, ?_⟩
    · by_cases hall : ((diverseResults provider remote count now).filter
          (fun r => !r.success)).length = count
      · rw [if_pos hall]; exact hdemo
      · rw [if_neg hall]; exact hdiv
    · intro hfail r hr
      have hall : ((diverseResults provider remote count now).filter
          (fun r => !r.success)).length = count := by
        have heq : (diverseResults provider remote count now).filter
            (fun r => !r.success) = diverseResults provider remote count now := by
          rw [List.filter_eq_self]
          intro a ha
          obtain ⟨i, -, rfl⟩ := List.mem_map.mp ha
          simp [hattempt i (hfail i)]
        rw [heq, hdiv]
      rw [if_pos hall] at hr
      exact hdemoSucc r hr

/-- Witness for `generateDiverseMarkets_count`: three requested markets
with every remote call failing. -/
theorem generateDiverseMarkets_count_witness :
    (generateDiverseMarkets .anthropic (fun _ => Except.error "x") 3 0).length = 3
    ∧ ∀ r ∈ generateDiverseMarkets .anthropic (fun _ => Except.error "x") 3 0,
        r.success = true :=
  ⟨(generateDiverseMarkets_count .anthropic (fun _ => Except.error "x") 3 0
      (by norm_num)).1,
   (generateDiverseMarkets_count .anthropic (fun _ => Except.error "x") 3 0
      (by norm_num)).2 (fun _ => rfl)⟩

/-- The score component of the weighted-table fold of `scoreRelevance` is
the entry score plus Σ (weight × 10) over the matched entries. -/
theorem tblFold_fst (lt : String) (l : List (String × ℚ)) :
    ∀ acc : ℚ × List String,
      (l.foldl (fun acc kw =>
          if strIncl lt kw.1 then (acc.1 + kw.2 * 10, acc.2 ++ [kw.1]) else acc)
        acc).1
      = acc.1 + ((l.filter (fun kw => strIncl lt kw.1)).map
          (fun kw => kw.2 * 10)).sum := by
  induction l with
  | nil => intro acc; simp
  | cons kw t ih =>
    intro acc
    by_cases h : strIncl lt kw.1 = true
    · rw [List.foldl_cons, List.filter_cons, if_pos h, if_pos h, ih,
        List.map_cons, List.sum_cons]
      ring
    · rw [List.foldl_cons, List.filter_cons, if_neg h, if_neg h]
      exact ih acc

/-- The score component of the source-keyword fold of `scoreRelevance` is
the entry score plus 5 per matched source keyword — the duplicate check
only affects the matched-keyword list. -/
theorem srcFold_fst (lt : String) (l : List String) :
    ∀ acc : ℚ × List String,
      (l.foldl (fun acc kw =>
          if strIncl lt (lowerStr kw) then
            (acc.1 + 5, if acc.2.contains kw then acc.2 else acc.2 ++ [kw])
          else acc)
        acc).1
      = acc.1 + 5 * ((l.filter (fun kw => strIncl lt (lowerStr kw))).length : ℚ) := by
  induction l with
  | nil => intro acc; simp
  | cons kw t ih =>
    intro acc
    by_cases h : strIncl lt (lowerStr kw) = true
    · rw [List.foldl_cons, List.filter_cons, if_pos h, if_pos h, ih,
        List.length_cons]
      push_cast
      ring
    · rw [List.foldl_cons, List.filter_cons, if_neg h, if_neg h]
      exact ih acc

/-- Closed form of the score computed by `scoreRelevance`. -/
theorem scoreRelevance_score_eq (text : String) (skw : List String) (w : ℚ) :
    (scoreRelevance text skw w).score
      = min (jsRound ((tableRawScore (lowerStr text)
          + 5 * (srcMatchCount (lowerStr text) skw : ℚ)) * w)) 100 := by
  unfold scoreRelevance
  simp only
  rw [srcFold_fst, tblFold_fst]
  simp [tableRawScore, srcMatchCount]

/-- Every weight in the keyword table is nonnegative. -/
theorem privacyKeywords_nonneg : ∀ p ∈ privacyKeywords, 0 ≤ p.2 := by
  intro p hp
  fin_cases hp <;> norm_num

/-- The matched-table raw score is nonnegative. -/
theorem tableRawScore_nonneg (lt : String) : 0 ≤ tableRawScore lt := by
  unfold tableRawScore
  apply List.sum_nonneg
  intro x hx
  obtain ⟨kw, hkw, rfl⟩ := List.mem_map.mp hx
  have hw : 0 ≤ kw.2 := privacyKeywords_nonneg kw (List.mem_of_mem_filter hkw)
  nlinarith

/-- A text matching at least the keywords of another accumulates at least
its matched-table raw score. -/
theorem tableRawScore_mono (lt1 lt2 : String)
    (h : ∀ kw : String, strIncl lt1 kw = true → strIncl lt2 kw = true) :
    tableRawScore lt1 ≤ tableRawScore lt2 := by
  unfold tableRawScore
  have main : ∀ l : List (String × ℚ), (∀ p ∈ l, 0 ≤ p.2) →
      ((l.filter (fun kw => strIncl lt1 kw.1)).map (fun kw => kw.2 * 10)).sum
        ≤ ((l.filter (fun kw => strIncl lt2 kw.1)).map (fun kw => kw.2 * 10)).sum := by
    intro l
    induction l with
    | nil => simp
    | cons p t ih =>
      intro hw
      have hwp : 0 ≤ p.2 := hw p (List.mem_cons_self p t)
      have iht := ih (fun q hq => hw q (List.mem_cons_of_mem p hq))
      by_cases h1 : strIncl lt1 p.1 = true
      · rw [List.filter_cons, List.filter_cons, if_pos h1, if_pos (h p.1 h1),
          List.map_cons, List.map_cons, List.sum_cons, List.sum_cons]
        linarith
      · rw [List.filter_cons, List.filter_cons, if_neg h1]
        by_cases h2 : strIncl lt2 p.1 = true
        · rw [if_pos h2, List.map_cons, List.sum_cons]
          nlinarith
        · rw [if_neg h2]
          exact iht
  exact main privacyKeywords privacyKeywords_nonneg

/-- A filter with a pointwise-weaker predicate keeps no more elements. -/
theorem filter_length_mono {α : Type} (l : List α) (p q : α → Bool)
    (h : ∀ x ∈ l, p x = true → q x = true) :
    (l.filter p).length ≤ (l.filter q).length := by
  induction l with
  | nil => simp
  | cons a t ih =>
    have iht := ih (fun x hx => h x (List.mem_cons_of_mem a hx))
    by_cases hp : p a = true
    · rw [List.filter_cons, List.filter_cons, if_pos hp,
        if_pos (h a (List.mem_cons_self a t) hp), List.length_cons,
        List.length_cons]
      omega
    · rw [List.filter_cons, if_neg hp]
      by_cases hq : q a = true
      · rw [List.filter_cons, if_pos hq, List.length_cons]
        omega
      · rw [List.filter_cons, if_neg hq]
        exact iht

/-- Monotonicity of `Math.round`. -/
theorem jsRound_mono {a b : ℚ} (h : a ≤ b) : jsRound a ≤ jsRound b :=
  Int.floor_le_floor (by linarith)

/-- Nonnegativity of `Math.round` on nonnegative rationals. -/
theorem jsRound_nonneg {a : ℚ} (h : 0 ≤ a) : 0 ≤ jsRound a := by
  unfold jsRound
  rw [Int.le_floor]
  push_cast
  linarith

/-- A keyword-count fold over a list with no matches keeps its entry value. -/
theorem foldl_count_zero (m : String → Bool) (ks : List String)
    (h : ∀ k ∈ ks, m k = false) (n : Nat) :
    ks.foldl (fun n k => if m k then n + 1 else n) n = n := by
  induction ks generalizing n with
  | nil => rfl
  | cons a t ih =>
    rw [List.foldl_cons, if_neg (by simp [h a (List.mem_cons_self a t)])]
    exact ih (fun k hk => h k (List.mem_cons_of_mem a hk)) n

/-- The best-category fold keeps its initial pair when every candidate
count is zero (the comparison is strict). -/
theorem foldl_best_zero (l : List (String × Nat)) (b : String)
    (h : ∀ s ∈ l, s.2 = 0) :
    l.foldl (fun (best : String × Nat) s => if s.2 > best.2 then s else best)
        (b, 0) = (b, 0) := by
  induction l with
  | nil => rfl
  | cons a t ih =>
    rw [List.foldl_cons, if_neg (by simp [h a (List.mem_cons_self a t)])]
    exact ih (fun s hs => h s (List.mem_cons_of_mem a hs))

/-- With no category-keyword hit, `determineCategory` returns the default
technology category. -/
theorem determineCategory_default (lt : String)
    (h : ∀ ck ∈ categoryKeywords, ∀ k ∈ ck.2, strIncl lt k = false) :
    determineCategory lt = "technology" := by
  have hmap : ∀ s ∈ categoryKeywords.map (fun ck =>
      (ck.1, ck.2.foldl (fun n k => if strIncl lt k then n + 1 else n) 0)),
      s.2 = 0 := by
    intro s hs
    obtain ⟨ck, hck, rfl⟩ := List.mem_map.mp hs
    exact foldl_count_zero _ _ (h ck hck) 0
  simp only [determineCategory]
  rw [foldl_best_zero _ _ hmap]

/-- C4 counterexample: for text "privacy" with source keyword list
["privacy"] and weight 1, the code scores 20 — the source keyword adds its
5 points even though it duplicates the already-matched table term — while
the claimed formula (5 points only for non-duplicating source keywords)
yields 15. -/
theorem scoreRelevance_dedup_cx :
    (scoreRelevance "privacy" ["privacy"] 1).score = 20
    ∧ claimC4score "privacy" ["privacy"] 1 = 15 := by
  constructor
  · norm_num +decide [scoreRelevance, privacyKeywords, jsRound]
  · norm_num +decide [claimC4score, tableMatched, tableRawScore,
      privacyKeywords, jsRound]

/-- C4 amended: the raw score is Σ (weight × 10) over matched table
entries plus 5 points per matched source keyword with no deduplication
against already-matched terms (the duplicate check only affects the
matched-keyword list); the final score is `min(round(raw × weight), 100)`,
which lies in [0, 100] whenever the source weight is nonnegative. -/
theorem scoreRelevance_formula (text : String) (skw : List String) (w : ℚ) :
    (scoreRelevance text skw w).score
        = min (jsRound ((tableRawScore (lowerStr text)
            + 5 * (srcMatchCount (lowerStr text) skw : ℚ)) * w)) 100
    ∧ (0 ≤ w → 0 ≤ (scoreRelevance text skw w).score
        ∧ (scoreRelevance text skw w).score ≤ 100) := by
  refine ⟨scoreRelevance_score_eq text skw w, fun hw => ⟨?_, ?_⟩⟩
  · rw [scoreRelevance_score_eq]
    refine le_min ?_ (by norm_num)
    exact jsRound_nonneg
      (mul_nonneg (add_nonneg (tableRawScore_nonneg _) (by positivity)) hw)
  · rw [scoreRelevance_score_eq]
    exact min_le_right _ _

/-- Witness for `scoreRelevance_formula` at weight 1. -/
theorem scoreRelevance_formula_witness :
    (0:ℚ) ≤ 1
    ∧ (0 ≤ (scoreRelevance "privacy" ["privacy"] 1).score
        ∧ (scoreRelevance "privacy" ["privacy"] 1).score ≤ 100) :=
  ⟨by norm_num, (scoreRelevance_formula "privacy" ["privacy"] 1).2 (by norm_num)⟩

/-- C5 counterexample: the score is not clamped below — with source weight
−1 the text "privacy" scores −15, outside [0, 100], refuting "for every
input text, keyword list and weight the returned score lies in [0, 100]". -/
theorem scoreRelevance_negative_weight_cx :
    (scoreRelevance "privacy" [] (-1)).score = -15
    ∧ (scoreRelevance "privacy" [] (-1)).score < 0 := by
  have h : (scoreRelevance "privacy" [] (-1)).score = -15 := by
    norm_num +decide [scoreRelevance, privacyKeywords, jsRound]
  exact ⟨h, by rw [h]; norm_num⟩

/-- C5 amended: for a fixed nonnegative source weight the score is
monotonically non-decreasing as the text matches more keywords, and lies
in [0, 100]; a text with zero keyword matches scores 0 and gets the
default category technology. -/
theorem scoreRelevance_monotone_bounded (t1 t2 : String) (skw : List String)
    (w : ℚ) :
    ((∀ kw : String, strIncl (lowerStr t1) kw = true →
          strIncl (lowerStr t2) kw = true) → 0 ≤ w →
        (scoreRelevance t1 skw w).score ≤ (scoreRelevance t2 skw w).score)
    ∧ (0 ≤ w → 0 ≤ (scoreRelevance t1 skw w).score
        ∧ (scoreRelevance t1 skw w).score ≤ 100)
    ∧ ((∀ p ∈ privacyKeywords, strIncl (lowerStr t1) p.1 = false) →
       (∀ kw ∈ skw, strIncl (lowerStr t1) (lowerStr kw) = false) →
       (∀ ck ∈ categoryKeywords, ∀ k ∈ ck.2, strIncl (lowerStr t1) k = false) →
       (scoreRelevance t1 skw w).score = 0
         ∧ (scoreRelevance t1 skw w).suggestedCategory = "technology") := by
  refine ⟨?_, ?_, ?_⟩
  · intro hmono hw
    rw [scoreRelevance_score_eq, scoreRelevance_score_eq]
    refine min_le_min ?_ le_rfl
    apply jsRound_mono
    apply mul_le_mul_of_nonneg_right _ hw
    have h1 := tableRawScore_mono (lowerStr t1) (lowerStr t2) hmono
    have h2 : (srcMatchCount (lowerStr t1) skw : ℚ)
        ≤ (srcMatchCount (lowerStr t2) skw : ℚ) := by
      have := filter_length_mono skw
        (fun kw => strIncl (lowerStr t1) (lowerStr kw))
        (fun kw => strIncl (lowerStr t2) (lowerStr kw))
        (fun kw _ hk => hmono (lowerStr kw) hk)
      unfold srcMatchCount
      exact_mod_cast this
    linarith
  · intro hw
    constructor
    · rw [scoreRelevance_score_eq]
      refine le_min ?_ (by norm_num)
      exact jsRound_nonneg
        (mul_nonneg (add_nonneg (tableRawScore_nonneg _) (by positivity)) hw)
    · rw [scoreRelevance_score_eq]
      exact min_le_right _ _
  · intro h1 h2 h3
    constructor
    · rw [scoreRelevance_score_eq]
      have hA : tableRawScore (lowerStr t1) = 0 := by
        unfold tableRawScore
        have hnil : privacyKeywords.filter
            (fun kw => strIncl (lowerStr t1) kw.1) = [] := by
          rw [List.filter_eq_nil_iff]
          intro p hp
          simp [h1 p hp]
        rw [hnil]
        rfl
      have hC : srcMatchCount (lowerStr t1) skw = 0 := by
        unfold srcMatchCount
        have hnil : skw.filter
            (fun kw => strIncl (lowerStr t1) (lowerStr kw)) = [] := by
          rw [List.filter_eq_nil_iff]
          intro k hk
          simp [h2 k hk]
        rw [hnil]
        rfl
      rw [hA, hC]
      norm_num [jsRound]
    · show determineCategory (lowerStr t1) = "technology"
      exact determineCategory_default _ h3

/-- Witness for `scoreRelevance_monotone_bounded` at a no-match text. -/
theorem scoreRelevance_monotone_bounded_witness :
    (scoreRelevance "xyzzy" [] 1).score ≤ (scoreRelevance "xyzzy" [] 1).score
    ∧ (0 ≤ (scoreRelevance "xyzzy" [] 1).score
        ∧ (scoreRelevance "xyzzy" [] 1).score ≤ 100)
    ∧ ((scoreRelevance "xyzzy" [] 1).score = 0
        ∧ (scoreRelevance "xyzzy" [] 1).suggestedCategory = "technology") := by
  have h := scoreRelevance_monotone_bounded "xyzzy" "xyzzy" [] 1
  exact ⟨h.1 (fun kw hk => hk) (by norm_num),
         h.2.1 (by norm_num),
         h.2.2 (by decide) (by simp) (by decide)⟩

/-- A freshly added id is in the cache immediately after its `cacheAdd`
(the id is the newest element, so a same-step batch eviction keeps it). -/
theorem cacheAdd_self_of_fresh (s : List String) (id : String)
    (h : s.contains id = false) : cacheHas (cacheAdd s id) id = true := by
  have hins : cacheInsert s id = s ++ [id] := by
    rw [cacheInsert, if_neg (by simpa using h)]
  rw [cacheHas, cacheAdd, hins]
  by_cases hlen : (s ++ [id]).length > 10000
  · rw [if_pos hlen]
    have hk : (s ++ [id]).length - 5000 ≤ s.length := by
      simp only [List.length_append, List.length_singleton]
      omega
    rw [List.drop_append_of_le_length hk]
    simp
  · rw [if_neg hlen]
    simp

/-- An eviction-free `cacheAdd` keeps the added id. -/
theorem cacheAdd_self_of_no_evict (s : List String) (id : String)
    (h : addEvicts s id = false) : cacheHas (cacheAdd s id) id = true := by
  have hlen : ¬((cacheInsert s id).length > 10000) := by
    simpa [addEvicts] using h
  rw [cacheHas, cacheAdd, if_neg hlen, cacheInsert]
  by_cases hc : s.contains id = true
  · rw [if_pos hc]
    exact hc
  · rw [if_neg hc]
    simp

/-- An eviction-free `cacheAdd` keeps every previously present id. -/
theorem cacheHas_mono_no_evict (s : List String) (x id : String)
    (hhas : cacheHas s id = true) (hne : addEvicts s x = false) :
    cacheHas (cacheAdd s x) id = true := by
  have hlen : ¬((cacheInsert s x).length > 10000) := by
    simpa [addEvicts] using hne
  rw [cacheHas, cacheAdd, if_neg hlen, cacheInsert]
  by_cases hc : s.contains x = true
  · rw [if_pos hc]
    exact hhas
  · rw [if_neg hc]
    have hm : id ∈ s := by simpa [cacheHas] using hhas
    simp [hm]

/-- C6. An id passed to `add` is never reported as new while no eviction
has occurred since (including an eviction during its own `add`, which
keeps the id as the newest element); eviction fires exactly when the size
after insertion exceeds the maximum M = 10000, and then one batch keeps
only the most recently inserted M/2 = 5000 ids, dropping the oldest ones. -/
theorem dedup_cache_props (c : List String) (id : String) (ids : List String)
    (b : List String) (y : String) :
    (addEvicts c id = false → noEvictRun (cacheAdd c id) ids = true →
        cacheHas (ids.foldl cacheAdd (cacheAdd c id)) id = true)
    ∧ (addEvicts b y = true ↔ 10000 < (cacheInsert b y).length)
    ∧ (addEvicts b y = true →
        cacheAdd b y
          = (cacheInsert b y).drop ((cacheInsert b y).length - 5000)) := by
  refine ⟨?_, ?_, ?_⟩
  · intro h0 hrun
    have main : ∀ (l : List String) (s : List String), cacheHas s id = true →
        noEvictRun s l = true → cacheHas (l.foldl cacheAdd s) id = true := by
      intro l
      induction l with
      | nil => intro s hs _; simpa using hs
      | cons x xs ih =>
        intro s hs hrun2
        simp only [noEvictRun, Bool.and_eq_true, Bool.not_eq_true'] at hrun2
        rw [List.foldl_cons]
        exact ih (cacheAdd s x) (cacheHas_mono_no_evict s x id hs hrun2.1)
          hrun2.2
    exact main ids (cacheAdd c id) (cacheAdd_self_of_no_evict c id h0) hrun
  · simp [addEvicts]
  · intro h
    have h' : (cacheInsert b y).length > 10000 := by simpa [addEvicts] using h
    rw [cacheAdd, if_pos h']

/-- Witness for `dedup_cache_props`: an id added to a small cache is still
reported as seen after a further eviction-free add. -/
theorem dedup_cache_props_witness :
    cacheHas (["b"].foldl cacheAdd (cacheAdd ["a"] "a")) "a" = true :=
  (dedup_cache_props ["a"] "a" ["b"] [] "y").1 (by decide) (by decide)

/-- The step `processEntry` always registers the entry id in the cache,
whether or not the entry score passed the threshold. -/
theorem processEntry_cache (source : NewsSource) (now : Nat) (nowIso : String)
    (st : List String × List NewsItem) (e : FeedEntry) :
    cacheHas (processEntry source now nowIso st e).1
        (entryId source now e) = true := by
  rw [processEntry]
  by_cases h : cacheHas st.1 (entryId source now e) = true
  · rw [if_pos h]
    exact h
  · rw [if_neg h]
    show cacheHas (cacheAdd st.1 (entryId source now e))
        (entryId source now e) = true
    exact cacheAdd_self_of_fresh st.1 _ (by simpa [cacheHas] using h)

/-- C7. The stable id of a processed entry is registered in the dedup cache
regardless of its score, so re-ingesting an entry with the same guid in
the next cycle (before any eviction) yields no candidate the second time. -/
theorem scrape_registers_and_dedups (source : NewsSource) (now now2 : Nat)
    (nowIso nowIso2 : String) (seen : List String) (e : FeedEntry) :
    cacheHas (scrapeRSSSource source now nowIso seen [e]).2
        (entryId source now e) = true
    ∧ (e.guid ≠ "" →
        (scrapeRSSSource source now2 nowIso2
            (scrapeRSSSource source now nowIso seen [e]).2 [e]).1 = []) := by
  have h1 : (scrapeRSSSource source now nowIso seen [e]).2
      = (processEntry source now nowIso (seen, []) e).1 := rfl
  constructor
  · rw [h1]
    exact processEntry_cache source now nowIso (seen, []) e
  · intro hg
    have hid : ∀ n : Nat, entryId source n e = e.guid := by
      intro n
      rw [entryId, jsOr, if_neg hg]
    have hc : cacheHas (scrapeRSSSource source now nowIso seen [e]).2
        (entryId source now2 e) = true := by
      rw [hid now2, ← hid now, h1]
      exact processEntry_cache source now nowIso (seen, []) e
    have h2 : (scrapeRSSSource source now2 nowIso2
        (scrapeRSSSource source now nowIso seen [e]).2 [e]).1
        = (processEntry source now2 nowIso2
            ((scrapeRSSSource source now nowIso seen [e]).2, []) e).2 := rfl
    rw [h2, processEntry, if_pos hc]

/-- Witness for `scrape_registers_and_dedups` at a concrete feed entry. -/
theorem scrape_registers_and_dedups_witness :
    cacheHas (scrapeRSSSource wSource 0 "" [] [wEntry]).2
        (entryId wSource 0 wEntry) = true
    ∧ (scrapeRSSSource wSource 1 ""
        (scrapeRSSSource wSource 0 "" [] [wEntry]).2 [wEntry]).1 = [] := by
  have h := scrape_registers_and_dedups wSource 0 1 "" "" [] wEntry
  exact ⟨h.1, h.2 (by decide)⟩

/-- The merge loop `allNews.push(...newsItems)` concatenates the
per-source lists. -/
theorem foldl_append_eq_flatten (L : List (List NewsItem)) :
    ∀ acc : List NewsItem,
      L.foldl (fun a l => a ++ l) acc = acc ++ L.flatten := by
  induction L with
  | nil => intro acc; simp
  | cons h t ih =>
    intro acc
    rw [List.foldl_cons, ih, List.flatten_cons, List.append_assoc]

/-- The `unshift` loop prepends the batch in reverse order. -/
theorem foldl_cons_eq_reverse_append (l : List NewsItem) :
    ∀ r : List NewsItem,
      l.foldl (fun r i => i :: r) r = l.reverse ++ r := by
  induction l with
  | nil => intro r; simp
  | cons a t ih =>
    intro r
    rw [List.foldl_cons, ih, List.reverse_cons, List.append_assoc]
    rfl

/-- The descending-relevance comparison is transitive. -/
theorem byScoreDesc_trans (a b c : NewsItem) (h1 : byScoreDesc a b = true)
    (h2 : byScoreDesc b c = true) : byScoreDesc a c = true := by
  simp only [byScoreDesc, decide_eq_true_eq] at *
  omega

/-- The descending-relevance comparison is total. -/
theorem byScoreDesc_total (a b : NewsItem) :
    (byScoreDesc a b || byScoreDesc b a) = true := by
  simp only [byScoreDesc, Bool.or_eq_true, decide_eq_true_eq]
  omega

/-- C8. `scrapeAllSources` returns the merge of the surviving
candidates filtered to the recency window, sorted by descending relevance
and truncated to 15 (the output is pairwise sorted); and the recent-events
buffer receives every surviving candidate — pre-truncation, recent or not
— newest first, trimmed to capacity 100 with the oldest entries evicted. -/
theorem scrapeAllSources_spec (parseTime : String → ℤ) (now : ℤ)
    (perSource : List (List NewsItem)) (recent0 : List NewsItem) :
    (scrapeAllSources parseTime now perSource recent0).1
        = ((perSource.flatten.filter
            (fun i => isRecentNews parseTime now i.publishedAt)).mergeSort
              byScoreDesc).take 15
    ∧ (scrapeAllSources parseTime now perSource recent0).2
        = (if (perSource.flatten.reverse ++ recent0).length > 100 then
            (perSource.flatten.reverse ++ recent0).take 100
          else perSource.flatten.reverse ++ recent0)
    ∧ List.Pairwise (fun a b => byScoreDesc a b = true)
        (scrapeAllSources parseTime now perSource recent0).1 := by
  have hflat : perSource.foldl (fun acc l => acc ++ l) ([] : List NewsItem)
      = perSource.flatten := by
    rw [foldl_append_eq_flatten, List.nil_append]
  refine ⟨?_, ?_, ?_⟩
  · show (((perSource.foldl (fun acc l => acc ++ l) []).filter
        (fun i => isRecentNews parseTime now i.publishedAt)).mergeSort
          byScoreDesc).take 15
      = ((perSource.flatten.filter
          (fun i => isRecentNews parseTime now i.publishedAt)).mergeSort
            byScoreDesc).take 15
    rw [hflat]
  · show (if ((perSource.foldl (fun acc l => acc ++ l) []).foldl
          (fun r i => i :: r) recent0).length > 100 then
        ((perSource.foldl (fun acc l => acc ++ l) []).foldl
          (fun r i => i :: r) recent0).take 100
      else (perSource.foldl (fun acc l => acc ++ l) []).foldl
          (fun r i => i :: r) recent0)
      = (if (perSource.flatten.reverse ++ recent0).length > 100 then
          (perSource.flatten.reverse ++ recent0).take 100
        else perSource.flatten.reverse ++ recent0)
    rw [hflat, foldl_cons_eq_reverse_append]
  · show List.Pairwise (fun a b => byScoreDesc a b = true)
      ((((perSource.foldl (fun acc l => acc ++ l) []).filter
          (fun i => isRecentNews parseTime now i.publishedAt)).mergeSort
            byScoreDesc).take 15)
    exact List.Pairwise.sublist (List.take_sublist _ _)
      (List.sorted_mergeSort byScoreDesc_trans byScoreDesc_total _)
